import Mathlib

/-!
Verification of the across-relayer-monitoring pipeline.

Shallow embedding of the Python modules `process_bundles.py`,
`process_repayments.py`, `collect_fills.py`, `enrich_fills.py`,
`process_returns.py`, `update_token_prices.py` and
`calculate_daily_profits.py`.  Database tables are lists of rows,
SQL queries become list operations, the integer token amounts carried
through Python `Decimal` become `ℤ` (and USD prices / back-off delays
become `ℚ`),
and external I/O (RPC event logs, explorer APIs, HTTP fee / price
endpoints, block-timestamp lookups) is passed in as explicit data.
-/

namespace RelayerMonitoring

/-- One entry of the `CHAINS` list in `config.py`.  Only the fields the
verified code paths read are kept; `start_block` is optional because the
Python code guards lookups with a membership test. -/
structure ChainConfig where
  chain_id : Nat
  name : String := ""
  start_block : Option Nat := none
  bundle_block_index : Nat := 0
deriving DecidableEq, Repr

/-- A row of the `Bundle` table. -/
structure BundleRow where
  bundle_id : Nat
  chain_id : Nat
  relayer_refund_root : String := ""
  end_block : Nat
deriving DecidableEq, Repr

/-- A `ProposeRootBundle` event from the hub contract. -/
structure ProposeEvent where
  relayerRefundRoot : String
  bundleEvaluationBlockNumbers : List Nat
  blockNumber : Nat := 0
deriving DecidableEq, Repr

/-- A `RelayedRootBundle` event from a spoke contract. -/
structure SpokeEvent where
  rootBundleId : Nat
  relayerRefundRoot : String
  blockNumber : Nat := 0
deriving DecidableEq, Repr

/-- A row of the `Fill` table (columns used by the verified code paths;
amounts are written as `str(int)` and stored as decimal strings in SQLite,
so they are modelled as `ℤ`). -/
structure Fill where
  tx_hash : String := ""
  is_success : Bool := true
  route_id : Nat := 0
  depositor : String := ""
  recipient : String := ""
  exclusive_relayer : String := ""
  input_token : String := ""
  output_token : String := ""
  input_amount : ℤ := 0
  output_amount : ℤ := 0
  origin_chain_id : Nat := 0
  destination_chain_id : Nat := 0
  deposit_id : Nat := 0
  fill_deadline : Option Nat := none
  exclusivity_deadline : Option Nat := none
  message : String := ""
  repayment_chain_id : Option Nat := none
  repayment_address : Option String := none
  gas_cost : ℤ := 0
  gas_price : ℤ := 0
  block_number : Nat := 0
  tx_timestamp : Nat := 0
  deposit_timestamp : Option Nat := none
  deposit_block_number : Option Nat := none
  lp_fee : Option ℤ := none
deriving DecidableEq, Repr

/-- A row of the `Return` table. -/
structure ReturnRow where
  tx_hash : String := ""
  return_chain_id : Nat := 0
  return_token : String := ""
  return_amount : ℤ := 0
  root_bundle_id : Nat := 0
  leaf_id : Nat := 0
  refund_address : String := ""
  is_deferred : Bool := false
  caller : String := ""
  block_number : Nat := 0
  tx_timestamp : Nat := 0
deriving DecidableEq, Repr

/-- A row of the `BundleReturn` table. -/
structure BundleReturnRow where
  bundle_id : Nat
  chain_id : Nat
  token_address : String
  token_symbol : String := ""
  input_amount : ℤ := 0
  return_amount : ℤ := 0
  lp_fee : ℤ := 0
  start_block : Nat := 0
  end_block : Nat := 0
  start_time : Nat := 0
  end_time : Nat := 0
  fill_tx_hashes : List String := []
  return_tx_hash : Option String := none
  relayer_refund_root : String := ""
deriving DecidableEq, Repr

/-- A row of the `Token` table. -/
structure TokenRow where
  token_address : String
  chain_id : Nat
  symbol : String
  decimals : Nat
deriving DecidableEq, Repr

/-- A row of the `TokenPrice` table; a calendar date is modelled as a
day index (unix timestamp divided by 86400). -/
structure TokenPriceRow where
  date : Nat
  token_symbol : String
  price_usd : ℚ
deriving DecidableEq, Repr

/-- A row of the `DailyProfit` table (aggregate columns used here). -/
structure DailyProfitRow where
  date : Nat
  chain_id : Nat
  token_symbol : String
  success_input_amount : ℚ := 0
  success_output_amount : ℚ := 0
  success_lp_fee : ℚ := 0
  success_gas_fee_eth : ℚ := 0
  success_gas_fee_usd : ℚ := 0
  all_input_amount : ℚ := 0
  all_output_amount : ℚ := 0
  all_lp_fee : ℚ := 0
  all_gas_fee_eth : ℚ := 0
  all_gas_fee_usd : ℚ := 0
  total_fills : Nat := 0
  successful_fills : Nat := 0
  profit_usd : ℚ := 0
deriving DecidableEq, Repr

/-- A row of the `Route` table (columns used by fill ingestion). -/
structure RouteRow where
  route_id : Nat
  origin_chain_id : Nat
  destination_chain_id : Nat
  input_token : String
  output_token : String
deriving DecidableEq, Repr

/-- A transaction record as returned by a block-explorer `txlist` API. -/
structure ExplorerTx where
  hash : String := ""
  methodId : String := ""
  isError : String := "0"
  input : String := ""
  blockNumber : Nat := 0
  timeStamp : Nat := 0
  gasUsed : Nat := 0
  gasPrice : Nat := 0
deriving DecidableEq, Repr

/-- The `relayData` struct decoded from a fill transaction's input. -/
structure RelayData where
  depositor : String := ""
  recipient : String := ""
  exclusiveRelayer : String := ""
  inputToken : String := ""
  outputToken : String := ""
  inputAmount : ℤ := 0
  outputAmount : ℤ := 0
  originChainId : Nat := 0
  depositId : Nat := 0
  fillDeadline : Option Nat := none
  exclusivityDeadline : Option Nat := none
  message : String := ""
deriving DecidableEq, Repr

/-- The full decoded input of a fill transaction
(`decode_function_input` result). -/
structure DecodedFillInput where
  relayData : RelayData
  repaymentChainId : Option Nat := none
  repaymentAddress : Option String := none
deriving DecidableEq, Repr

/-- A `FundsDeposited` event (fields read by the enricher). -/
structure DepositEvent where
  depositId : Nat
  quoteTimestamp : Nat
  blockNumber : Nat
deriving DecidableEq, Repr

/-- An `ExecutedRelayerRefundRoot` event (fields read by the return
ingestor). -/
structure RefundEvent where
  transactionHash : String := ""
  l2TokenAddress : String := ""
  refundAmounts : List ℤ := []
  rootBundleId : Nat := 0
  leafId : Nat := 0
  refundAddresses : List String := []
  deferredRefunds : Bool := false
  caller : String := ""
  blockNumber : Nat := 0
deriving DecidableEq, Repr

/-! ### Small list helpers (SQL `MAX` / `MIN` over a column) -/

/-- SQL `MAX` over a list of naturals, `none` on the empty list. -/
def maxNat? : List Nat → Option Nat
  | [] => none
  | x :: xs =>
    match maxNat? xs with
    | none => some x
    | some m => some (max x m)

/-- SQL `MIN` over a list of naturals, `none` on the empty list. -/
def minNat? : List Nat → Option Nat
  | [] => none
  | x :: xs =>
    match minNat? xs with
    | none => some x
    | some m => some (min x m)

/-! ### `process_bundles.py` -/

/-- Embedding of `get_last_processed_bundle`: `SELECT MAX(bundle_id) FROM Bundle WHERE
chain_id = ?`; on no rows, the chain's configured `start_block`; on missing
configuration the function logs an error and returns 0. -/
def get_last_processed_bundle (chains : List ChainConfig) (bundles : List BundleRow)
    (chain_id : Nat) : Nat :=
  match maxNat? ((bundles.filter (fun b => decide (b.chain_id = chain_id))).map
      (fun b => b.bundle_id)) with
  | some m => m
  | none =>
    match chains.find? (fun c => decide (c.chain_id = chain_id)) with
    | some c =>
      match c.start_block with
      | some sb => sb
      | none => 0
    | none => 0

/-- Embedding of `get_last_bundle_end_block`: `SELECT end_block FROM Bundle WHERE
bundle_id = ? AND chain_id = ?` (first row); on no row, the chain's
configured `start_block`; on missing configuration it logs and returns 0. -/
def get_last_bundle_end_block (chains : List ChainConfig) (bundles : List BundleRow)
    (bundle_id chain_id : Nat) : Nat :=
  match bundles.find? (fun b => decide (b.bundle_id = bundle_id ∧ b.chain_id = chain_id)) with
  | some b => b.end_block
  | none =>
    match chains.find? (fun c => decide (c.chain_id = chain_id)) with
    | some c =>
      match c.start_block with
      | some sb => sb
      | none => 0
    | none => 0

/-- Embedding of `get_spoke_bundle_events`: the spoke chain's `RelayedRootBundle` log
(given as `spokeLog`) filtered by `from_block = start_block` and by
membership of the refund root in `relayer_roots`. -/
def get_spoke_bundle_events (spokeLog : List SpokeEvent) (relayer_roots : List String)
    (start_block : Nat) : List SpokeEvent :=
  spokeLog.filter (fun e =>
    decide (start_block ≤ e.blockNumber ∧ e.relayerRefundRoot ∈ relayer_roots))

/-- The matching loop of `process_chain_bundles`: for each hub proposal, find
the spoke event with the same refund root; on a match read the evaluation
block at the chain's `bundle_block_index` and insert a `Bundle` row when it
advances past `last_bundle_end_block`.  An out-of-range index raises
`IndexError` in Python, which rolls back every insert of the run: that is
the `none` result. -/
def processMatches (chain : ChainConfig) (chain_id last_bundle_end_block : Nat)
    (bundle_events : List SpokeEvent) : List ProposeEvent → Option (List BundleRow)
  | [] => some []
  | p :: ps =>
    match bundle_events.find? (fun e => decide (e.relayerRefundRoot = p.relayerRefundRoot)) with
    | some s =>
      match p.bundleEvaluationBlockNumbers[chain.bundle_block_index]? with
      | some bundle_end_block =>
        if last_bundle_end_block ≤ bundle_end_block then
          (processMatches chain chain_id last_bundle_end_block bundle_events ps).map
            (fun rest =>
              { bundle_id := s.rootBundleId, chain_id := chain_id,
                relayer_refund_root := p.relayerRefundRoot,
                end_block := bundle_end_block } :: rest)
        else
          processMatches chain chain_id last_bundle_end_block bundle_events ps
      | none => none
    | none => processMatches chain chain_id last_bundle_end_block bundle_events ps

/-- Embedding of `process_chain_bundles`: correlates hub `ProposeRootBundle` events with
spoke `RelayedRootBundle` events and appends matched `Bundle` rows to the
table.  `hubLog` is the hub contract's full event log; the `create_filter`
calls are the `from_block` filters below. -/
def process_chain_bundles (chains : List ChainConfig) (hubLog : List ProposeEvent)
    (spokeLog : List SpokeEvent) (chain_id : Nat) (db : List BundleRow) : List BundleRow :=
  match chains.find? (fun c => decide (c.chain_id = chain_id)) with
  | none => db
  | some chain =>
    let last_bundle_id := get_last_processed_bundle chains db chain_id
    let last_bundle_end_block := get_last_bundle_end_block chains db last_bundle_id chain_id + 1
    let last_eth_bundle_end_block := get_last_bundle_end_block chains db last_bundle_id 1
    let propose_events := hubLog.filter (fun e => decide (last_eth_bundle_end_block ≤ e.blockNumber))
    if propose_events.isEmpty then db
    else
      let relayer_roots := propose_events.map (fun e => e.relayerRefundRoot)
      let bundle_events := get_spoke_bundle_events spokeLog relayer_roots last_bundle_end_block
      if bundle_events.isEmpty then db
      else
        match processMatches chain chain_id last_bundle_end_block bundle_events propose_events with
        | some rows => db ++ rows
        | none => db

/-- Restatement of the spec's per-proposal correlation rule, for comparison
with `process_chain_bundles`: a proposal with a matching spoke event inserts
exactly one row keyed by the spoke event's `rootBundleId` with the
evaluation block at the chain's index, precisely when that block is at
least the previously recorded end block plus one; an unmatched proposal
inserts nothing. -/
def correlateSpec (chain : ChainConfig) (chain_id prev_end_block : Nat)
    (bundle_events : List SpokeEvent) (p : ProposeEvent) : Option BundleRow :=
  match bundle_events.find? (fun e => decide (e.relayerRefundRoot = p.relayerRefundRoot)) with
  | some s =>
    match p.bundleEvaluationBlockNumbers[chain.bundle_block_index]? with
    | some bundle_end_block =>
      if prev_end_block + 1 ≤ bundle_end_block then
        some { bundle_id := s.rootBundleId, chain_id := chain_id,
               relayer_refund_root := p.relayerRefundRoot,
               end_block := bundle_end_block }
      else none
    | none => none
  | none => none

/-! ### `process_repayments.py` -/

/-- Sort fills by ascending block number (`ORDER BY f.block_number ASC`). -/
def sortFillsByBlock (l : List Fill) : List Fill :=
  List.insertionSort (fun a b => a.block_number ≤ b.block_number) l

/-- Sort returns by ascending block number (`ORDER BY r.block_number ASC`). -/
def sortReturnsByBlock (l : List ReturnRow) : List ReturnRow :=
  List.insertionSort (fun a b => a.block_number ≤ b.block_number) l

/-- The SQL `COALESCE(MAX(b2.end_block), 0)` over bundles on the same chain with a
strictly smaller `end_block` — the `bundle_info` CTE's previous-end column. -/
def prevEndBlock (bundles : List BundleRow) (chain_id end_block : Nat) : Nat :=
  match maxNat? ((bundles.filter (fun b =>
      decide (b.chain_id = chain_id ∧ b.end_block < end_block))).map
      (fun b => b.end_block)) with
  | some m => m
  | none => 0

/-- The `bundle_info` CTE of `get_bundle_fills`: this bundle's `end_block`
together with the previous bundle's `end_block` on the same chain. -/
def bundle_info (bundles : List BundleRow) (bundle_id chain_id : Nat) : Option (Nat × Nat) :=
  (bundles.find? (fun b => decide (b.bundle_id = bundle_id ∧ b.chain_id = chain_id))).map
    (fun b1 => (b1.end_block, prevEndBlock bundles b1.chain_id b1.end_block))

/-- The fill filter of `get_bundle_fills`: successful fills repaid on this
chain, for this output token, with block number in the half-open-below
window `(prev_end_block, end_block]`. -/
def fillInWindow (chain_id : Nat) (token_address : String) (end_block prev_end_block : Nat)
    (f : Fill) : Bool :=
  decide (f.repayment_chain_id = some chain_id ∧ f.output_token = token_address ∧
    f.is_success = true ∧ f.block_number ≤ end_block ∧ prev_end_block < f.block_number)

/-- Embedding of `get_bundle_fills`: the fills belonging to a bundle for one token,
with the window's start and end blocks (`(0, 0)` when no rows match). -/
def get_bundle_fills (bundles : List BundleRow) (fills : List Fill)
    (bundle_id chain_id : Nat) (token_address : String) : List Fill × Nat × Nat :=
  match bundle_info bundles bundle_id chain_id with
  | none => ([], 0, 0)
  | some (end_block, prev_end_block) =>
    let rows := sortFillsByBlock
      (fills.filter (fillInWindow chain_id token_address end_block prev_end_block))
    if rows.isEmpty then ([], 0, 0)
    else (rows, prev_end_block + 1, end_block)

/-- Embedding of `get_bundle_returns`: `Return` rows for this chain, token and root
bundle id, ordered by block number. -/
def get_bundle_returns (returns : List ReturnRow) (bundle_id chain_id : Nat)
    (token_address : String) : List ReturnRow :=
  sortReturnsByBlock (returns.filter (fun r =>
    decide (r.return_chain_id = chain_id ∧ r.return_token = token_address ∧
      r.root_bundle_id = bundle_id)))

/-- Embedding of `process_bundle`: for each active `(token_address, token_symbol)` pair,
aggregate the bundle's in-window fills (skipping tokens with no fills) and
produce the `BundleReturn` row that is inserted.  `blockTime` is the chain
client's `get_block_timestamp`. -/
def process_bundle (blockTime : Nat → Nat → Nat) (bundles : List BundleRow)
    (fills : List Fill) (returns : List ReturnRow) (bundle : BundleRow)
    (active_tokens : List (String × String)) : List BundleReturnRow :=
  active_tokens.filterMap (fun tok =>
    match get_bundle_fills bundles fills bundle.bundle_id bundle.chain_id tok.1 with
    | (bfills, start_block, end_block) =>
      if bfills.isEmpty then none
      else
        let breturns := get_bundle_returns returns bundle.bundle_id bundle.chain_id tok.1
        let total_input := (bfills.map (fun f => f.input_amount)).sum
        let total_lp_fee := (bfills.map (fun f => f.lp_fee.getD 0)).sum
        let total_return := (breturns.map (fun r => r.return_amount)).sum
        some { bundle_id := bundle.bundle_id, chain_id := bundle.chain_id,
               token_address := tok.1, token_symbol := tok.2,
               input_amount := total_input, return_amount := total_return,
               lp_fee := total_lp_fee,
               start_block := start_block, end_block := end_block,
               start_time := blockTime bundle.chain_id start_block,
               end_time := blockTime bundle.chain_id end_block,
               fill_tx_hashes := bfills.map (fun f => f.tx_hash),
               return_tx_hash := (breturns.head?).map (fun r => r.tx_hash),
               relayer_refund_root := bundle.relayer_refund_root })

/-- The `BundleReturn` row that `process_bundle` inserts for one bundle and
one active token whose window `(P, E]` contains at least one fill (named
here so theorems can refer to it). -/
def aggregatedBundleReturnRow (blockTime : Nat → Nat → Nat) (fills : List Fill)
    (returns : List ReturnRow) (bundle : BundleRow) (tok : String × String)
    (E P : Nat) : BundleReturnRow :=
  { bundle_id := bundle.bundle_id, chain_id := bundle.chain_id,
    token_address := tok.1, token_symbol := tok.2,
    input_amount := ((sortFillsByBlock
      (fills.filter (fillInWindow bundle.chain_id tok.1 E P))).map
        (fun f => f.input_amount)).sum,
    return_amount := ((get_bundle_returns returns bundle.bundle_id bundle.chain_id
      tok.1).map (fun r2 => r2.return_amount)).sum,
    lp_fee := ((sortFillsByBlock
      (fills.filter (fillInWindow bundle.chain_id tok.1 E P))).map
        (fun f => f.lp_fee.getD 0)).sum,
    start_block := P + 1, end_block := E,
    start_time := blockTime bundle.chain_id (P + 1),
    end_time := blockTime bundle.chain_id E,
    fill_tx_hashes := (sortFillsByBlock
      (fills.filter (fillInWindow bundle.chain_id tok.1 E P))).map (fun f => f.tx_hash),
    return_tx_hash := (get_bundle_returns returns bundle.bundle_id bundle.chain_id
      tok.1).head?.map (fun r2 => r2.tx_hash),
    relayer_refund_root := bundle.relayer_refund_root }

/-! ### `collect_fills.py` -/

/-- Embedding of `get_fill_transactions`: the explorer's transaction list filtered to
the fill-method signature with `isError == "0"` (successful only). -/
def get_fill_transactions (fill_relay_method_id : String) (txs : List ExplorerTx) :
    List ExplorerTx :=
  txs.filter (fun tx =>
    decide (tx.methodId = fill_relay_method_id ∧ tx.isError = "0"))

/-- Embedding of `process_and_store_fill`: decode the transaction input (`decode` models
`decode_function_input`; decoding failure raises and the fill is skipped),
resolve the route by exact 4-tuple match, and build the inserted `Fill` row.
The Python code hardcodes `is_success = True` ("we filtered for successful
txs"). -/
def process_and_store_fill (decode : String → Option DecodedFillInput)
    (routes : List RouteRow) (chain_id : Nat) (tx : ExplorerTx) : Option Fill :=
  match decode tx.input with
  | none => none
  | some d =>
    match routes.find? (fun r =>
        decide (r.origin_chain_id = d.relayData.originChainId ∧
          r.destination_chain_id = chain_id ∧
          r.input_token = d.relayData.inputToken ∧
          r.output_token = d.relayData.outputToken)) with
    | none => none
    | some route =>
      some { tx_hash := tx.hash, is_success := true, route_id := route.route_id,
             depositor := d.relayData.depositor, recipient := d.relayData.recipient,
             exclusive_relayer := d.relayData.exclusiveRelayer,
             input_token := d.relayData.inputToken,
             output_token := d.relayData.outputToken,
             input_amount := d.relayData.inputAmount,
             output_amount := d.relayData.outputAmount,
             origin_chain_id := d.relayData.originChainId,
             destination_chain_id := chain_id,
             deposit_id := d.relayData.depositId,
             fill_deadline := d.relayData.fillDeadline,
             exclusivity_deadline := d.relayData.exclusivityDeadline,
             message := d.relayData.message,
             repayment_chain_id := d.repaymentChainId,
             repayment_address := d.repaymentAddress,
             gas_cost := ((tx.gasUsed * tx.gasPrice : Nat) : ℤ),
             gas_price := ((tx.gasPrice : Nat) : ℤ),
             block_number := tx.blockNumber,
             tx_timestamp := tx.timeStamp }

/-- One chain's pass of `collect_fills`: filter the explorer transactions
and store each decodable fill. -/
def collect_chain_fills (decode : String → Option DecodedFillInput)
    (routes : List RouteRow) (fill_relay_method_id : String) (chain_id : Nat)
    (txs : List ExplorerTx) : List Fill :=
  (get_fill_transactions fill_relay_method_id txs).filterMap
    (process_and_store_fill decode routes chain_id)

/-- Embedding of `get_last_processed_block` (fill cursor): `SELECT MAX(block_number)
FROM Fill WHERE destination_chain_id = ?`; fallback to the chain's
configured `start_block`; on missing configuration it returns 0. -/
def get_last_processed_block (chains : List ChainConfig) (fills : List Fill)
    (chain_id : Nat) : Nat :=
  match maxNat? ((fills.filter (fun f => decide (f.destination_chain_id = chain_id))).map
      (fun f => f.block_number)) with
  | some m => m
  | none =>
    match chains.find? (fun c => decide (c.chain_id = chain_id)) with
    | some c =>
      match c.start_block with
      | some sb => sb
      | none => 0
    | none => 0

/-! ### `enrich_fills.py` -/

/-- Embedding of `get_deposit_start_block`: latest `deposit_block_number` seen for the
origin chain minus a 1,000,000-block buffer; on no data, the chain's
configured `start_block` minus the buffer; a missing chain configuration
raises `ValueError` (modelled with `Except`).  Results are `Int` because
the buffer subtraction can go negative. -/
def get_deposit_start_block (chains : List ChainConfig) (fills : List Fill)
    (chain_id : Nat) : Except String Int :=
  match maxNat? ((fills.filter (fun f => decide (f.origin_chain_id = chain_id))).filterMap
      (fun f => f.deposit_block_number)) with
  | some m => .ok ((m : Int) - 1000000)
  | none =>
    match chains.find? (fun c => decide (c.chain_id = chain_id)) with
    | none => .error "no configuration found for chain"
    | some c =>
      match c.start_block with
      | none => .error "no start_block configured for chain"
      | some sb => .ok ((sb : Int) - 1000000)

/-- Python-dict assignment `d[k] = v`: replace the binding if the key is
present, otherwise append it. -/
def assocUpsert (m : List (Nat × DepositEvent)) (k : Nat) (v : DepositEvent) :
    List (Nat × DepositEvent) :=
  if m.any (fun p => decide (p.1 = k)) then
    m.map (fun p => if p.1 = k then (k, v) else p)
  else m ++ [(k, v)]

/-- Python-dict lookup `d.get(k)`. -/
def assocGet? (m : List (Nat × DepositEvent)) (k : Nat) : Option DepositEvent :=
  (m.find? (fun p => decide (p.1 = k))).map (fun p => p.2)

/-- The tail of `get_deposit_events`: `events_by_deposit_id[str(depositId)]
= event` over all collected events — keyed by deposit id ALONE, so a later
chain's event with the same id overwrites an earlier chain's. -/
def events_by_deposit_id (all_events : List DepositEvent) : List (Nat × DepositEvent) :=
  all_events.foldl (fun acc e => assocUpsert acc e.depositId e) []

/-- Embedding of `get_deposit_events`: for each configured chain in order, collect the
`FundsDeposited` events whose `depositId` is among the requested ids
(`chainLogs` models each chain's event log over the scanned block range),
then build the dictionary keyed by deposit id only. -/
def get_deposit_events (chains : List ChainConfig) (chainLogs : Nat → List DepositEvent)
    (deposit_ids : List Nat) : List (Nat × DepositEvent) :=
  events_by_deposit_id (chains.flatMap (fun c =>
    (chainLogs c.chain_id).filter (fun e => decide (e.depositId ∈ deposit_ids))))

/-- Embedding of `process_fill_batch`: each fill looks up a deposit event by its
`deposit_id` only (no origin-chain scoping); on a hit and a successful LP
fee quote the fill is updated with the event's quote timestamp, the event's
block number and the fee.  Returns the enriched fills. -/
def process_fill_batch (deposit_events : List (Nat × DepositEvent))
    (lpFee : Fill → Nat → Option ℤ) (fills : List Fill) : List Fill :=
  fills.filterMap (fun fill =>
    match assocGet? deposit_events fill.deposit_id with
    | none => none
    | some event =>
      match lpFee fill event.quoteTimestamp with
      | none => none
      | some fee =>
        some { fill with deposit_timestamp := some event.quoteTimestamp,
                         deposit_block_number := some event.blockNumber,
                         lp_fee := some fee })

/-- Outcome of one HTTP attempt against the LP-fee API. -/
inductive LpApiResult where
  | ok (lpFeeTotal : ℤ)
  | httpError (status : Nat)
  | exn
deriving DecidableEq, Repr

/-- Whether an attempt returned status 200 with a parsable body. -/
def LpApiResult.isOk : LpApiResult → Bool
  | .ok _ => true
  | _ => false

/-- The retry loop of `get_lp_fee` (`for attempt in range(max_retries + 1)`),
with the remaining iteration count as structural fuel (the loop makes at
most `max_retries + 1` iterations; `fuel = max_retries + 1 - attempt`).
Returns the result, the number of HTTP attempts made, and the list of
back-off delays slept (each `initial_delay * 2 ** attempt`). -/
def lpFeeAux (responses : Nat → LpApiResult) (max_retries : Nat) (initial_delay : ℚ) :
    Nat → Nat → Option ℤ × Nat × List ℚ
  | 0, _ => (none, 0, [])
  | fuel + 1, attempt =>
    match responses attempt with
    | .ok v => (some v, 1, [])
    | _ =>
      if attempt < max_retries then
        let rest := lpFeeAux responses max_retries initial_delay fuel (attempt + 1)
        (rest.1, rest.2.1 + 1, initial_delay * 2 ^ attempt :: rest.2.2)
      else (none, 1, [])

/-- Embedding of `get_lp_fee`: at most `max_retries + 1` HTTP attempts with exponential
back-off; `None` when every attempt fails.  Callers use the defaults
`max_retries = 3`, `initial_delay = 1.0`. -/
def get_lp_fee (responses : Nat → LpApiResult) (max_retries : Nat) (initial_delay : ℚ) :
    Option ℤ × Nat × List ℚ :=
  lpFeeAux responses max_retries initial_delay (max_retries + 1) 0

/-! ### `update_token_prices.py` -/

/-- Outcome of one HTTP attempt against the CoinGecko history endpoint. -/
inductive PriceApiResult where
  | rateLimited
  | okPrice (p : ℚ)
  | okNoMarketData
  | exn
deriving DecidableEq, Repr

/-- The retry loop of `_get_price_from_api` (`for attempt in range(retries)`),
with the remaining iteration count as structural fuel
(`fuel = retries - attempt`) and the mutable `delay` variable threaded
through.  A 429 sleeps `delay * 2 ** attempt` and keeps `delay`; any other
failure sleeps `delay` and doubles it; a 200 body without market data
returns `None` immediately.  Returns the result, the number of HTTP
attempts made, and the delays slept. -/
def priceAux (responses : Nat → PriceApiResult) (retries : Nat) :
    Nat → Nat → ℚ → Option ℚ × Nat × List ℚ
  | 0, _, _ => (none, 0, [])
  | fuel + 1, attempt, delay =>
    match responses attempt with
    | .rateLimited =>
      if attempt < retries - 1 then
        let rest := priceAux responses retries fuel (attempt + 1) delay
        (rest.1, rest.2.1 + 1, delay * 2 ^ attempt :: rest.2.2)
      else (none, 1, [])
    | .okPrice p => (some p, 1, [])
    | .okNoMarketData => (none, 1, [])
    | .exn =>
      if attempt < retries - 1 then
        let rest := priceAux responses retries fuel (attempt + 1) (delay * 2)
        (rest.1, rest.2.1 + 1, delay :: rest.2.2)
      else (none, 1, [])

/-- Embedding of `_get_price_from_api` with its hardcoded `retries = 3` and initial
`delay = 10`. -/
def _get_price_from_api (responses : Nat → PriceApiResult) : Option ℚ × Nat × List ℚ :=
  priceAux responses 3 3 0 10

/-! ### `process_returns.py` -/

/-- Inner body of `process_chain_returns`: for one refund event addressed
to the relayer, one `Return` row per index at which the relayer's address
appears in `refundAddresses`.  An index beyond `refundAmounts` raises
`IndexError`, which the per-insert handler logs and skips. -/
def returnRowsOfEvent (relayer : String) (blockTime : Nat → Nat → Nat) (chain_id : Nat)
    (event : RefundEvent) : List ReturnRow :=
  if relayer ∈ event.refundAddresses then
    ((event.refundAddresses.enum.filter (fun p => decide (p.2 = relayer))).map
        (fun p => p.1)).filterMap (fun index =>
      match event.refundAmounts[index]? with
      | none => none
      | some amount =>
        some { tx_hash := event.transactionHash, return_chain_id := chain_id,
               return_token := event.l2TokenAddress, return_amount := amount,
               root_bundle_id := event.rootBundleId, leaf_id := event.leafId,
               refund_address := event.refundAddresses.getD index "",
               is_deferred := event.deferredRefunds, caller := event.caller,
               block_number := event.blockNumber,
               tx_timestamp := blockTime chain_id event.blockNumber })
  else []

/-- Embedding of `process_chain_returns`: scan one chain's `ExecutedRelayerRefundRoot`
events and insert the matching refund leaves. -/
def process_chain_returns (relayer : String) (blockTime : Nat → Nat → Nat)
    (chain_id : Nat) (events : List RefundEvent) : List ReturnRow :=
  events.flatMap (returnRowsOfEvent relayer blockTime chain_id)

/-- Embedding of `process_returns`: iterate the configured chains, but only chain id 1
is processed (`if chain_id == 1: # we only have returns for WBTC on
eth_mainnet`).  `chainEvents` models each chain's refund-event log. -/
def process_returns (chains : List ChainConfig) (relayer : String)
    (blockTime : Nat → Nat → Nat) (chainEvents : Nat → List RefundEvent) : List ReturnRow :=
  chains.flatMap (fun c =>
    if c.chain_id = 1 then process_chain_returns relayer blockTime 1 (chainEvents 1)
    else [])

/-! ### `calculate_daily_profits.py` -/

/-- The SQL `DATE(ts, 'unixepoch')` modelled as the day index. -/
def dateOf (ts : Nat) : Nat := ts / 86400

/-- Lookup of a `TokenPrice` row for a date and symbol. -/
def priceLookup (prices : List TokenPriceRow) (date : Nat) (symbol : String) : Option ℚ :=
  (prices.find? (fun p => decide (p.date = date ∧ p.token_symbol = symbol))).map
    (fun p => p.price_usd)

/-- The `JOIN Token` of the daily-profit query: a fill paired with its
destination-chain token row; fills without a token row drop out. -/
def fillTokenJoin (tokens : List TokenRow) (fills : List Fill) : List (Fill × TokenRow) :=
  fills.filterMap (fun f =>
    (tokens.find? (fun t =>
        decide (t.token_address = f.output_token ∧ t.chain_id = f.destination_chain_id))).map
      (fun t => (f, t)))

/-- Group key of `fill_amounts`: (date, destination chain, token symbol). -/
def groupKey (ft : Fill × TokenRow) : Nat × Nat × String :=
  (dateOf ft.1.tx_timestamp, ft.1.destination_chain_id, ft.2.symbol)

/-- One day's `INSERT OR REPLACE INTO DailyProfit ... SELECT` of
`calculate_daily_profits`: aggregate the day's fills by (date, chain,
symbol), scale by token decimals, and join that day's `TokenPrice` rows for
the token's symbol AND for ETH (inner joins: a group missing either price
produces no row). -/
def insertDailyProfitDay (fills : List Fill) (tokens : List TokenRow)
    (prices : List TokenPriceRow) (start_ts end_ts : Nat) : List DailyProfitRow :=
  let joined := fillTokenJoin tokens
    (fills.filter (fun f => decide (start_ts ≤ f.tx_timestamp ∧ f.tx_timestamp < end_ts)))
  let keys := (joined.map groupKey).dedup
  keys.filterMap (fun k =>
    match priceLookup prices k.1 k.2.2, priceLookup prices k.1 "ETH" with
    | some token_price, some eth_price =>
      let group := joined.filter (fun ft => decide (groupKey ft = k))
      let success := group.filter (fun ft => ft.1.is_success)
      let scale : Fill × TokenRow → ℚ := fun ft => (10 : ℚ) ^ ft.2.decimals
      let success_input := (success.map (fun ft => (ft.1.input_amount : ℚ) / scale ft)).sum
      let success_output := (success.map (fun ft => (ft.1.output_amount : ℚ) / scale ft)).sum
      let success_lp := (success.map (fun ft => ((ft.1.lp_fee.getD 0 : ℤ) : ℚ) / scale ft)).sum
      let success_gas := (success.map (fun ft => (ft.1.gas_cost : ℚ) / (10 : ℚ) ^ 18)).sum
      let all_input := (group.map (fun ft => (ft.1.input_amount : ℚ) / scale ft)).sum
      let all_output := (group.map (fun ft => (ft.1.output_amount : ℚ) / scale ft)).sum
      let all_lp := (group.map (fun ft => ((ft.1.lp_fee.getD 0 : ℤ) : ℚ) / scale ft)).sum
      let all_gas := (group.map (fun ft => (ft.1.gas_cost : ℚ) / (10 : ℚ) ^ 18)).sum
      some { date := k.1, chain_id := k.2.1, token_symbol := k.2.2,
             success_input_amount := success_input,
             success_output_amount := success_output,
             success_lp_fee := success_lp,
             success_gas_fee_eth := success_gas,
             success_gas_fee_usd := success_gas * eth_price,
             all_input_amount := all_input, all_output_amount := all_output,
             all_lp_fee := all_lp, all_gas_fee_eth := all_gas,
             all_gas_fee_usd := all_gas * eth_price,
             total_fills := group.length, successful_fills := success.length,
             profit_usd := (success_input - success_output - success_lp) * token_price -
               success_gas * eth_price }
    | _, _ => none)

/-- The symbol subselect of `_get_date_range`'s `NOT EXISTS` clause. -/
def symbolOf (tokens : List TokenRow) (f : Fill) : Option String :=
  (tokens.find? (fun t =>
      decide (t.token_address = f.output_token ∧ t.chain_id = f.destination_chain_id))).map
    (fun t => t.symbol)

/-- A fill lacking its `DailyProfit` row (the `NOT EXISTS` predicate of
`_get_date_range`; a fill whose token symbol resolves to SQL NULL never
matches a row, so it counts as unprocessed). -/
def unprocessedFill (tokens : List TokenRow) (dps : List DailyProfitRow) (f : Fill) : Bool :=
  !(dps.any (fun dp =>
    decide (dp.date = dateOf f.tx_timestamp ∧ dp.chain_id = f.destination_chain_id ∧
      some dp.token_symbol = symbolOf tokens f)))

/-- Embedding of `_get_date_range`: earliest unprocessed fill date (fallback: earliest
fill date) through the latest fill date; `none` models the crash on an
empty `Fill` table. -/
def _get_date_range (fills : List Fill) (tokens : List TokenRow)
    (dps : List DailyProfitRow) : Option (Nat × Nat) :=
  let start? :=
    match minNat? ((fills.filter (unprocessedFill tokens dps)).map
        (fun f => dateOf f.tx_timestamp)) with
    | some d => some d
    | none => minNat? (fills.map (fun f => dateOf f.tx_timestamp))
  match start?, maxNat? (fills.map (fun f => dateOf f.tx_timestamp)) with
  | some s, some e => some (s, e)
  | _, _ => none

/-! ### Concrete inputs used by witnesses and counterexamples -/

/-- A one-chain configuration for the bundle-correlation scenario
(spoke chain id 10 at bundle-array index 1). -/
def c1Chains : List ChainConfig :=
  [{ chain_id := 10, name := "Optimism", start_block := some 50, bundle_block_index := 1 }]

/-- One hub proposal with root `R` and evaluation-block array `[100, 200, 300]`. -/
def c1Hub : List ProposeEvent :=
  [{ relayerRefundRoot := "R", bundleEvaluationBlockNumbers := [100, 200, 300],
     blockNumber := 1000 }]

/-- One spoke `RelayedRootBundle` event with root `R` and bundle id 7. -/
def c1Spoke : List SpokeEvent :=
  [{ rootBundleId := 7, relayerRefundRoot := "R", blockNumber := 60 }]

/-- Bundle table for the repayment-aggregation scenario on chain `X = 5`:
a prior bundle ending at block 100 and a new bundle ending at block 200. -/
def c2Bundles : List BundleRow :=
  [{ bundle_id := 1, chain_id := 5, relayer_refund_root := "r0", end_block := 100 },
   { bundle_id := 2, chain_id := 5, relayer_refund_root := "r1", end_block := 200 }]

/-- The new bundle of the repayment-aggregation scenario. -/
def c2NewBundle : BundleRow :=
  { bundle_id := 2, chain_id := 5, relayer_refund_root := "r1", end_block := 200 }

/-- Three successful fills on chain 5 for token `T` at blocks 150, 180 and
250 with input amounts 1000000, 2000000 and 500 (smallest units of a
6-decimals token). -/
def c2Fills : List Fill :=
  [{ tx_hash := "a", repayment_chain_id := some 5, output_token := "T",
     input_amount := 1000000, block_number := 150 },
   { tx_hash := "b", repayment_chain_id := some 5, output_token := "T",
     input_amount := 2000000, block_number := 180 },
   { tx_hash := "c", repayment_chain_id := some 5, output_token := "T",
     input_amount := 500, block_number := 250 }]

/-- Two bundles on chain 7 for the contiguity witness. -/
def c3Bundles : List BundleRow :=
  [{ bundle_id := 1, chain_id := 7, end_block := 100 },
   { bundle_id := 2, chain_id := 7, end_block := 200 }]

/-- The earlier of the two bundles on chain 7. -/
def c3PrevRow : BundleRow := { bundle_id := 1, chain_id := 7, end_block := 100 }

/-- Two configured chains for the deposit-lookup scenario. -/
def c4Chains : List ChainConfig :=
  [{ chain_id := 1, name := "Ethereum" }, { chain_id := 10, name := "Optimism" }]

/-- Per-chain `FundsDeposited` logs: chains 1 and 10 both emitted a deposit
with id 5 but different quote timestamps and block numbers. -/
def c4ChainLogs : Nat → List DepositEvent := fun cid =>
  if cid = 1 then [{ depositId := 5, quoteTimestamp := 1000, blockNumber := 111 }]
  else if cid = 10 then [{ depositId := 5, quoteTimestamp := 2000, blockNumber := 222 }]
  else []

/-- A fill awaiting enrichment whose deposit originated on chain 1. -/
def c4Fill : Fill := { tx_hash := "f1", deposit_id := 5, origin_chain_id := 1 }

/-- The enrichment the code actually produces for `c4Fill`: chain 10's
event data, although the fill's origin chain is 1. -/
def c4Enriched : Fill :=
  { c4Fill with deposit_timestamp := some 2000, deposit_block_number := some 222,
                lp_fee := some 1 }

/-- A reverted fill transaction (`isError = "1"`) matching the fill-method
signature. -/
def c5RevertedTx : ExplorerTx :=
  { hash := "t1", methodId := "0xdeadbeef", isError := "1" }

/-- A successful fill transaction matching the fill-method signature. -/
def c5GoodTx : ExplorerTx :=
  { hash := "t2", methodId := "0xdeadbeef", isError := "0" }

/-- A decoder returning fixed relay data for any input. -/
def c5Decode : String → Option DecodedFillInput := fun _ =>
  some { relayData := { inputToken := "I", outputToken := "O", originChainId := 1 } }

/-- A route table with the single matching route. -/
def c5Routes : List RouteRow :=
  [{ route_id := 3, origin_chain_id := 1, destination_chain_id := 10,
     input_token := "I", output_token := "O" }]

/-- The `Fill` row `process_and_store_fill` builds from `c5GoodTx`. -/
def c5StoredFill : Fill :=
  { tx_hash := "t2", is_success := true, route_id := 3, input_token := "I",
    output_token := "O", origin_chain_id := 1, destination_chain_id := 10 }

/-- Two configured chains for the return-ingestor scenario. -/
def c6Chains : List ChainConfig :=
  [{ chain_id := 1, name := "Ethereum" }, { chain_id := 10, name := "Optimism" }]

/-- A refund-execution event on chain 10 addressed to the relayer. -/
def c6Event10 : RefundEvent :=
  { transactionHash := "r1", l2TokenAddress := "W", refundAmounts := [500],
    rootBundleId := 3, leafId := 0, refundAddresses := ["RLY"], blockNumber := 42 }

/-- Per-chain refund-event logs: only chain 10 has activity. -/
def c6ChainEvents : Nat → List RefundEvent := fun cid =>
  if cid = 10 then [c6Event10] else []

/-- A `Return` row for bundle 2 on chain 5 for token `U` (a token with no
fills in the window). -/
def c7Returns : List ReturnRow :=
  [{ tx_hash := "rt", return_chain_id := 5, return_token := "U", return_amount := 9,
     root_bundle_id := 2 }]

/-- A one-chain configuration (chain 1 only) for the cursor-fallback
scenarios; chain 999 is not configured. -/
def c8Chains : List ChainConfig :=
  [{ chain_id := 1, name := "Ethereum", start_block := some 100 }]

/-- A price-API response sequence: rate-limited on the first attempt, then
network errors. -/
def c9MixedResponses : Nat → PriceApiResult := fun i =>
  if i = 0 then .rateLimited else .exn

/-- An LP-fee-API response sequence where every attempt fails. -/
def c9FailResponses : Nat → LpApiResult := fun _ => .exn

/-- A fill on day 2 (timestamp 200000) on chain 3 paying token `X`. -/
def c10Fill : Fill :=
  { tx_hash := "d1", output_token := "X", destination_chain_id := 3,
    tx_timestamp := 200000, input_amount := 5, output_amount := 4 }

/-- The token catalog entry for `X` on chain 3. -/
def c10Tokens : List TokenRow :=
  [{ token_address := "X", chain_id := 3, symbol := "XT", decimals := 6 }]

/-- A price table with the token's price for day 2 but no ETH price. -/
def c10PricesNoEth : List TokenPriceRow :=
  [{ date := 2, token_symbol := "XT", price_usd := 3 }]

/-! ### Helper lemmas -/

theorem maxNat?_eq_none_iff {l : List Nat} : maxNat? l = none ↔ l = [] := by
  cases l with
  | nil => simp [maxNat?]
  | cons x xs =>
    simp only [maxNat?]
    cases maxNat? xs <;> simp

theorem minNat?_eq_none_iff {l : List Nat} : minNat? l = none ↔ l = [] := by
  cases l with
  | nil => simp [minNat?]
  | cons x xs =>
    simp only [minNat?]
    cases minNat? xs <;> simp

theorem maxNat?_mem {l : List Nat} {m : Nat} (h : maxNat? l = some m) : m ∈ l := by
  induction l generalizing m with
  | nil => simp [maxNat?] at h
  | cons x xs ih =>
    simp only [maxNat?] at h
    cases hxs : maxNat? xs with
    | none => rw [hxs] at h; simp at h; simp [h]
    | some m2 =>
      rw [hxs] at h
      simp only [Option.some.injEq] at h
      rcases max_choice x m2 with h1 | h1
      · simp [← h, h1]
      · have := ih hxs
        rw [← h, h1]
        exact List.mem_cons_of_mem _ this

theorem le_of_mem_maxNat? {l : List Nat} {m x : Nat} (hx : x ∈ l)
    (h : maxNat? l = some m) : x ≤ m := by
  induction l generalizing m with
  | nil => simp at hx
  | cons y ys ih =>
    simp only [maxNat?] at h
    cases hys : maxNat? ys with
    | none =>
      rw [hys] at h
      have : ys = [] := maxNat?_eq_none_iff.mp hys
      subst this
      simp at hx h
      omega
    | some m2 =>
      rw [hys] at h
      simp only [Option.some.injEq] at h
      rcases List.mem_cons.mp hx with h1 | h1
      · subst h1; omega
      · have := ih h1 hys
        omega

theorem minNat?_le_of_mem {l : List Nat} {m x : Nat} (hx : x ∈ l)
    (h : minNat? l = some m) : m ≤ x := by
  induction l generalizing m with
  | nil => simp at hx
  | cons y ys ih =>
    simp only [minNat?] at h
    cases hys : minNat? ys with
    | none =>
      rw [hys] at h
      have hnil : ys = [] := minNat?_eq_none_iff.mp hys
      subst hnil
      simp at hx h
      omega
    | some m2 =>
      rw [hys] at h
      simp only [Option.some.injEq] at h
      rcases List.mem_cons.mp hx with h1 | h1
      · rw [h1, ← h]
        exact min_le_left _ _
      · have h2 := ih h1 hys
        have h4 : m ≤ m2 := by rw [← h]; exact min_le_right _ _
        exact le_trans h4 h2

theorem minNat?_isSome_of_mem {l : List Nat} {x : Nat} (hx : x ∈ l) :
    (minNat? l).isSome := by
  cases l with
  | nil => simp at hx
  | cons y ys =>
    simp only [minNat?]
    cases minNat? ys <;> simp

theorem maxNat?_isSome_of_mem {l : List Nat} {x : Nat} (hx : x ∈ l) :
    (maxNat? l).isSome := by
  cases l with
  | nil => simp at hx
  | cons y ys =>
    simp only [maxNat?]
    cases maxNat? ys <;> simp

theorem maxNat?_eq_some_of_mem_of_ub {l : List Nat} {a : Nat} (ha : a ∈ l)
    (hub : ∀ x ∈ l, x ≤ a) : maxNat? l = some a := by
  cases hm : maxNat? l with
  | none =>
    rw [maxNat?_eq_none_iff] at hm
    subst hm; simp at ha
  | some m =>
    have h1 : m ∈ l := maxNat?_mem hm
    have h2 : a ≤ m := le_of_mem_maxNat? ha hm
    have h3 : m ≤ a := hub m h1
    rw [le_antisymm h3 h2]

theorem length_filterMap_of_all_isSome {α β : Type} {f : α → Option β} {l : List α}
    (h : ∀ a ∈ l, (f a).isSome) : (l.filterMap f).length = l.length := by
  induction l with
  | nil => simp
  | cons x xs ih =>
    have hx := h x (List.mem_cons_self x xs)
    cases hfx : f x with
    | none => rw [hfx] at hx; simp at hx
    | some b =>
      simp only [List.filterMap_cons, hfx, List.length_cons]
      rw [ih (fun a ha => h a (List.mem_cons_of_mem _ ha))]

theorem sortFillsByBlock_perm (l : List Fill) : (sortFillsByBlock l).Perm l :=
  List.perm_insertionSort _ l

theorem sortFillsByBlock_isEmpty_iff {l : List Fill} :
    (sortFillsByBlock l).isEmpty = true ↔ l = [] := by
  rw [List.isEmpty_iff, ← List.length_eq_zero, sortFillsByBlock,
    List.length_insertionSort, List.length_eq_zero]

theorem sum_map_sortFillsByBlock {M : Type} [AddCommMonoid M] (g : Fill → M) (l : List Fill) :
    ((sortFillsByBlock l).map g).sum = (l.map g).sum :=
  ((sortFillsByBlock_perm l).map g).sum_eq

/-- Characterization of the `process_chain_bundles` matching loop as a
`filterMap` of the per-proposal correlation rule, provided every proposal's
evaluation array is long enough for the chain's configured index. -/
theorem processMatches_eq_filterMap (chain : ChainConfig) (chain_id prev_end_block : Nat)
    (bundle_events : List SpokeEvent) (props : List ProposeEvent)
    (hlen : ∀ p ∈ props, chain.bundle_block_index < p.bundleEvaluationBlockNumbers.length) :
    processMatches chain chain_id (prev_end_block + 1) bundle_events props =
      some (props.filterMap (correlateSpec chain chain_id prev_end_block bundle_events)) := by
  induction props with
  | nil => simp [processMatches]
  | cons p ps ih =>
    have hp := hlen p (List.mem_cons_self p ps)
    have ihs := ih (fun q hq => hlen q (List.mem_cons_of_mem _ hq))
    simp only [processMatches, List.filterMap_cons]
    cases hfind : bundle_events.find?
        (fun e => decide (e.relayerRefundRoot = p.relayerRefundRoot)) with
    | none => simp [correlateSpec, hfind, ihs]
    | some s =>
      cases hget : p.bundleEvaluationBlockNumbers[chain.bundle_block_index]? with
      | none =>
        rw [List.getElem?_eq_none_iff] at hget
        omega
      | some beb =>
        simp only [correlateSpec, hfind, hget]
        by_cases hle : prev_end_block + 1 ≤ beb
        · simp [hle, ihs]
        · simp [hle, ihs]

theorem correlateSpec_nil_events (chain : ChainConfig) (chain_id prev_end_block : Nat)
    (p : ProposeEvent) : correlateSpec chain chain_id prev_end_block [] p = none := rfl

/-- C1: for every hub `ProposeRootBundle` event in the fetched window and
every spoke chain, the correlator inserts exactly one `Bundle` row keyed by
the matching spoke event's `rootBundleId` whose `end_block` is the
proposal's evaluation-block entry at the chain's configured
`bundle_block_index`, precisely when that end block is at least the
previously recorded end block plus one (`correlateSpec`); proposals without
a matching spoke event insert nothing and raise no error.  The run's output
is the table extended by the `filterMap` of this per-proposal rule. -/
theorem c1_bundle_correlation
    (chains : List ChainConfig) (hubLog : List ProposeEvent) (spokeLog : List SpokeEvent)
    (chain_id : Nat) (db : List BundleRow) (chain : ChainConfig)
    (hfind : chains.find? (fun c => decide (c.chain_id = chain_id)) = some chain)
    (hlen : ∀ p ∈ hubLog, chain.bundle_block_index < p.bundleEvaluationBlockNumbers.length) :
    process_chain_bundles chains hubLog spokeLog chain_id db =
      db ++
        (hubLog.filter (fun e => decide (get_last_bundle_end_block chains db
            (get_last_processed_bundle chains db chain_id) 1 ≤ e.blockNumber))).filterMap
          (correlateSpec chain chain_id
            (get_last_bundle_end_block chains db (get_last_processed_bundle chains db chain_id)
              chain_id)
            (get_spoke_bundle_events spokeLog
              ((hubLog.filter (fun e => decide (get_last_bundle_end_block chains db
                  (get_last_processed_bundle chains db chain_id) 1 ≤ e.blockNumber))).map
                (fun e => e.relayerRefundRoot))
              (get_last_bundle_end_block chains db (get_last_processed_bundle chains db chain_id)
                chain_id + 1))) := by
  simp only [process_chain_bundles, hfind]
  cases hpe : (hubLog.filter (fun e => decide (get_last_bundle_end_block chains db
      (get_last_processed_bundle chains db chain_id) 1 ≤ e.blockNumber))).isEmpty with
  | true =>
    rw [List.isEmpty_iff] at hpe
    simp [hpe]
  | false =>
    simp only [hpe, Bool.false_eq_true, if_false]
    cases hbe : (get_spoke_bundle_events spokeLog
        ((hubLog.filter (fun e => decide (get_last_bundle_end_block chains db
            (get_last_processed_bundle chains db chain_id) 1 ≤ e.blockNumber))).map
          (fun e => e.relayerRefundRoot))
        (get_last_bundle_end_block chains db (get_last_processed_bundle chains db chain_id)
          chain_id + 1)).isEmpty with
    | true =>
      rw [List.isEmpty_iff] at hbe
      rw [hbe]
      simp [correlateSpec_nil_events]
    | false =>
      rw [processMatches_eq_filterMap chain chain_id
        (get_last_bundle_end_block chains db (get_last_processed_bundle chains db chain_id)
          chain_id) _ _
        (fun p hp => hlen p (List.mem_of_mem_filter hp))]
      simp [hbe]

/-- Witness for C1, the spec's correlation scenario: one proposal with root
`R` and array `[100, 200, 300]` (chain index 1), one spoke event with root
`R` and bundle id 7, empty table: exactly one row
`(bundle_id = 7, chain_id = 10, end_block = 200)` is inserted. -/
theorem c1_bundle_correlation_witness :
    process_chain_bundles c1Chains c1Hub c1Spoke 10 [] =
      [{ bundle_id := 7, chain_id := 10, relayer_refund_root := "R", end_block := 200 }] := by
  have h := c1_bundle_correlation c1Chains c1Hub c1Spoke 10 []
    { chain_id := 10, name := "Optimism", start_block := some 50, bundle_block_index := 1 }
    (by rfl)
    (by
      intro p hp
      rw [c1Hub, List.mem_singleton] at hp
      subst hp
      decide)
  rw [h]
  rfl

/-- C2, counterexample: in the spec's repayment scenario (prior bundle at
block 100, new bundle at block 200, fills at 150/180/250 with inputs
1000000/2000000/500), the stored `input_amount` is the raw smallest-unit
sum 3000000, not the decimals-scaled "3.0" the claim asserts:
`process_repayments` never divides by the token's decimals. -/
theorem c2_repayment_aggregation_counterexample :
    ((process_bundle (fun _ _ => 0) c2Bundles c2Fills [] c2NewBundle [("T", "TKN")]).map
      (fun r => r.input_amount) = [3000000]) ∧ ¬ ((3000000 : ℚ) = 3) := by
  exact ⟨by decide, by norm_num⟩

/-- C2 (amended): for a matched bundle with window `(P, E]` (previous end
block `P`, own end block `E`) and any active token with at least one fill
in the window, the inserted `BundleReturn` row aggregates exactly the
successful fills with `repayment_chain_id` = the bundle's chain,
`output_token` = the token and block number in `(P, E]`, summing
`input_amount` and `lp_fee` (null `lp_fee` as zero) with exact integer
arithmetic in raw smallest units (no decimals scaling). -/
theorem c2_repayment_aggregation_amended
    (blockTime : Nat → Nat → Nat) (bundles : List BundleRow) (fills : List Fill)
    (returns : List ReturnRow) (bundle : BundleRow) (active_tokens : List (String × String))
    (tok : String × String) (E P : Nat)
    (htok : tok ∈ active_tokens)
    (hinfo : bundle_info bundles bundle.bundle_id bundle.chain_id = some (E, P))
    (hne : fills.filter (fillInWindow bundle.chain_id tok.1 E P) ≠ []) :
    aggregatedBundleReturnRow blockTime fills returns bundle tok E P ∈
        process_bundle blockTime bundles fills returns bundle active_tokens ∧
      (aggregatedBundleReturnRow blockTime fills returns bundle tok E P).input_amount =
        ((fills.filter (fillInWindow bundle.chain_id tok.1 E P)).map
          (fun f => f.input_amount)).sum ∧
      (aggregatedBundleReturnRow blockTime fills returns bundle tok E P).lp_fee =
        ((fills.filter (fillInWindow bundle.chain_id tok.1 E P)).map
          (fun f => f.lp_fee.getD 0)).sum ∧
      (aggregatedBundleReturnRow blockTime fills returns bundle tok E P).start_block = P + 1 ∧
      (aggregatedBundleReturnRow blockTime fills returns bundle tok E P).end_block = E := by
  have hni : ¬ ((sortFillsByBlock
      (fills.filter (fillInWindow bundle.chain_id tok.1 E P))).isEmpty = true) := by
    intro h
    exact hne (sortFillsByBlock_isEmpty_iff.mp h)
  have hgf : get_bundle_fills bundles fills bundle.bundle_id bundle.chain_id tok.1 =
      (sortFillsByBlock (fills.filter (fillInWindow bundle.chain_id tok.1 E P)),
        P + 1, E) := by
    simp only [get_bundle_fills, hinfo]
    rw [if_neg hni]
  refine ⟨?_, ?_, ?_, rfl, rfl⟩
  · simp only [process_bundle]
    refine List.mem_filterMap.mpr ⟨tok, htok, ?_⟩
    rw [hgf]
    simp only []
    rw [if_neg hni]
    rfl
  · exact sum_map_sortFillsByBlock _ _
  · exact sum_map_sortFillsByBlock _ _

/-- Witness for C2 (amended), the repayment scenario: the row for token `T`
sums exactly the in-window fills at blocks 150 and 180 and ignores the
block-250 fill. -/
theorem c2_repayment_aggregation_amended_witness :
    aggregatedBundleReturnRow (fun _ _ => 0) c2Fills [] c2NewBundle ("T", "TKN") 200 100 ∈
        process_bundle (fun _ _ => 0) c2Bundles c2Fills [] c2NewBundle [("T", "TKN")] ∧
      (aggregatedBundleReturnRow (fun _ _ => 0) c2Fills [] c2NewBundle
        ("T", "TKN") 200 100).input_amount = 3000000 := by
  have h := c2_repayment_aggregation_amended (fun _ _ => 0) c2Bundles c2Fills [] c2NewBundle
    [("T", "TKN")] ("T", "TKN") 200 100 (by decide) (by decide) (by decide)
  exact ⟨h.1, by rw [h.2.1]; decide⟩

/-- C3: bundle evaluation windows on one chain are contiguous and
non-overlapping by construction of the window computation (`bundle_info`):
(1) for a bundle whose immediately preceding bundle on the chain is `b2`
(the bundle of maximal `end_block` strictly below its own), the computed
window lower bound equals `b2.end_block`, i.e. the window starts at
`b2.end_block + 1`, and no fill selected for the later window can be
selected for `b2`'s window; (2) with no predecessor the lower bound is 0,
i.e. the window starts at block 1. -/
theorem c3_window_contiguity :
    (∀ (bundles : List BundleRow) (id1 C E1 P1 : Nat) (b2 : BundleRow),
      bundle_info bundles id1 C = some (E1, P1) →
      b2 ∈ bundles → b2.chain_id = C → b2.end_block < E1 →
      (∀ b ∈ bundles, b.chain_id = C → b.end_block < E1 → b.end_block ≤ b2.end_block) →
      P1 = b2.end_block ∧
        ∀ (tok : String) (P2 : Nat) (f : Fill),
          fillInWindow C tok E1 P1 f = true →
          fillInWindow C tok b2.end_block P2 f = false) ∧
    (∀ (bundles : List BundleRow) (id1 C E1 P1 : Nat),
      bundle_info bundles id1 C = some (E1, P1) →
      (∀ b ∈ bundles, b.chain_id = C → ¬ b.end_block < E1) →
      P1 = 0) := by
  constructor
  · intro bundles id1 C E1 P1 b2 hinfo hb2 hc2 hlt hmax
    simp only [bundle_info] at hinfo
    cases hf : bundles.find? (fun b => decide (b.bundle_id = id1 ∧ b.chain_id = C)) with
    | none => rw [hf] at hinfo; simp at hinfo
    | some b1 =>
      rw [hf] at hinfo
      simp only [Option.map_some', Option.some.injEq, Prod.mk.injEq] at hinfo
      obtain ⟨hE1, hP1⟩ := hinfo
      have hpred := List.find?_some hf
      simp only [decide_eq_true_eq] at hpred
      have hmax2 : maxNat? ((bundles.filter (fun b =>
          decide (b.chain_id = C ∧ b.end_block < E1))).map (fun b => b.end_block)) =
          some b2.end_block := by
        apply maxNat?_eq_some_of_mem_of_ub
        · refine List.mem_map.mpr ⟨b2, ?_, rfl⟩
          refine List.mem_filter.mpr ⟨hb2, ?_⟩
          simp [hc2, hlt]
        · intro x hx
          obtain ⟨b, hbmem, hbx⟩ := List.mem_map.mp hx
          have hbf := List.mem_filter.mp hbmem
          obtain ⟨hbc, hbe⟩ := (decide_eq_true_eq).mp hbf.2
          rw [← hbx]
          exact hmax b hbf.1 hbc hbe
      have hP1v : P1 = b2.end_block := by
        rw [← hP1, prevEndBlock, hpred.2, hE1, hmax2]
      refine ⟨hP1v, ?_⟩
      intro tok P2 f hfw
      simp only [fillInWindow, decide_eq_true_eq] at hfw
      simp only [fillInWindow, decide_eq_false_iff_not]
      intro hcontra
      obtain ⟨-, -, -, -, h5⟩ := hfw
      obtain ⟨-, -, -, h9, -⟩ := hcontra
      omega
  · intro bundles id1 C E1 P1 hinfo hnone
    simp only [bundle_info] at hinfo
    cases hf : bundles.find? (fun b => decide (b.bundle_id = id1 ∧ b.chain_id = C)) with
    | none => rw [hf] at hinfo; simp at hinfo
    | some b1 =>
      rw [hf] at hinfo
      simp only [Option.map_some', Option.some.injEq, Prod.mk.injEq] at hinfo
      obtain ⟨hE1, hP1⟩ := hinfo
      have hpred := List.find?_some hf
      simp only [decide_eq_true_eq] at hpred
      have hfe : bundles.filter (fun b => decide (b.chain_id = C ∧ b.end_block < E1)) = [] := by
        rw [List.filter_eq_nil_iff]
        intro b hb
        simp only [decide_eq_true_eq]
        intro hcontra
        exact hnone b hb hcontra.1 hcontra.2
      rw [← hP1, prevEndBlock, hpred.2, hE1, hfe]
      rfl

/-- Witness for C3: on the two-bundle chain-7 table, the window of bundle 2
(end block 200) starts right after bundle 1's end block 100, and no fill in
bundle 2's window lies in bundle 1's window; bundle 1 itself, having no
predecessor, gets lower bound 0. -/
theorem c3_window_contiguity_witness :
    ((100 : Nat) = c3PrevRow.end_block ∧
      ∀ (tok : String) (P2 : Nat) (f : Fill),
        fillInWindow 7 tok 200 100 f = true →
        fillInWindow 7 tok c3PrevRow.end_block P2 f = false) ∧
    (0 : Nat) = 0 := by
  constructor
  · exact c3_window_contiguity.1 c3Bundles 2 7 200 100 c3PrevRow (by decide) (by decide)
      (by decide) (by decide) (by decide)
  · exact c3_window_contiguity.2 c3Bundles 1 7 100 0 (by decide) (by decide)

/-- C4, code evaluation at the failing input: chains 1 and 10 each have a
deposit event with id 5 (chain 1's with quote timestamp 1000 / block 111,
chain 10's with 2000 / 222).  The fill with `origin_chain_id = 1` is
enriched with chain 10's event data, because `events_by_deposit_id` is
keyed by deposit id alone and chain 10's event overwrites chain 1's; the
spec's invariant requires the lookup to scope by deposit id AND origin
chain, which would have produced timestamp 1000 / block 111. -/
theorem c4_deposit_lookup_ignores_origin_chain :
    process_fill_batch (get_deposit_events c4Chains c4ChainLogs [5]) (fun _ _ => some 1)
        [c4Fill] = [c4Enriched] ∧
      c4Enriched.deposit_timestamp = some 2000 ∧
      (c4ChainLogs 1).map (fun e => e.quoteTimestamp) = [1000] := by
  exact ⟨by decide, by decide, by decide⟩

/-- C5, counterexample: a reverted transaction (`isError = "1"`) that
matches the fill-method signature is dropped by `get_fill_transactions`
(the filter keeps only `isError == "0"`), so no `Fill` row with
`is_success = false` is ever inserted — contradicting the claim that
reverted fill attempts are recorded. -/
theorem c5_reverted_fill_counterexample :
    c5RevertedTx.methodId = "0xdeadbeef" ∧ c5RevertedTx.isError = "1" ∧
      get_fill_transactions "0xdeadbeef" [c5RevertedTx] = [] := by
  exact ⟨rfl, rfl, by decide⟩

/-- C5 (amended): fill ingestion records only explorer transactions that
match the fill-method signature AND have `isError == "0"` (successful);
every inserted `Fill` row has `is_success = true` (hardcoded), so reverted
fill attempts produce no row at all. -/
theorem c5_success_only_ingestion_amended :
    (∀ (mId : String) (txs : List ExplorerTx) (tx : ExplorerTx),
      tx ∈ get_fill_transactions mId txs → tx.methodId = mId ∧ tx.isError = "0") ∧
    (∀ (decode : String → Option DecodedFillInput) (routes : List RouteRow) (cid : Nat)
      (tx : ExplorerTx) (f : Fill),
      process_and_store_fill decode routes cid tx = some f → f.is_success = true) := by
  constructor
  · intro mId txs tx htx
    have := List.mem_filter.mp htx
    exact (decide_eq_true_eq).mp this.2
  · intro decode routes cid tx f hf
    cases hd : decode tx.input with
    | none =>
      simp only [process_and_store_fill, hd] at hf
      exact absurd hf (by simp)
    | some d =>
      simp only [process_and_store_fill, hd] at hf
      cases hr : routes.find? (fun r =>
          decide (r.origin_chain_id = d.relayData.originChainId ∧
            r.destination_chain_id = cid ∧
            r.input_token = d.relayData.inputToken ∧
            r.output_token = d.relayData.outputToken)) with
      | none =>
        simp only [hr] at hf
        exact absurd hf (by simp)
      | some route =>
        simp only [hr, Option.some.injEq] at hf
        rw [← hf]

/-- Witness for C5 (amended): the successful transaction `c5GoodTx` passes
the filter with `isError = "0"`, and the row built for it has
`is_success = true`. -/
theorem c5_success_only_ingestion_amended_witness :
    (c5GoodTx.methodId = "0xdeadbeef" ∧ c5GoodTx.isError = "0") ∧
      c5StoredFill.is_success = true := by
  exact ⟨c5_success_only_ingestion_amended.1 "0xdeadbeef" [c5GoodTx] c5GoodTx (by decide),
    c5_success_only_ingestion_amended.2 c5Decode c5Routes 10 c5GoodTx c5StoredFill
      (by decide)⟩

theorem mem_enumFrom_bound {α : Type} {l : List α} {p : Nat × α} :
    ∀ {n : Nat}, p ∈ l.enumFrom n → p.1 < n + l.length := by
  induction l with
  | nil => intro n h; simp at h
  | cons x xs ih =>
    intro n h
    rw [List.enumFrom_cons] at h
    rcases List.mem_cons.mp h with h1 | h1
    · rw [h1]; simp
    · have := ih h1
      simp only [List.length_cons]
      omega

theorem enumFrom_filter_snd_length (r : String) :
    ∀ (n : Nat) (l : List String),
    ((l.enumFrom n).filter (fun p => decide (p.2 = r))).length =
      (l.filter (fun a => decide (a = r))).length := by
  intro n l
  induction l generalizing n with
  | nil => rfl
  | cons x xs ih =>
    rw [List.enumFrom_cons]
    simp only [List.filter_cons]
    by_cases h : x = r
    · simp [h, ih]
    · simp [h, ih]

/-- The number of Return rows one refund event produces equals the number
of positions at which the relayer's address occurs in `refundAddresses`,
when `refundAmounts` has the same length. -/
theorem returnRowsOfEvent_length (relayer : String) (blockTime : Nat → Nat → Nat)
    (chain_id : Nat) (event : RefundEvent)
    (hlen : event.refundAmounts.length = event.refundAddresses.length) :
    (returnRowsOfEvent relayer blockTime chain_id event).length =
      (event.refundAddresses.filter (fun a => decide (a = relayer))).length := by
  simp only [returnRowsOfEvent]
  by_cases hmem : relayer ∈ event.refundAddresses
  · rw [if_pos hmem]
    rw [length_filterMap_of_all_isSome]
    · rw [List.length_map, List.enum]
      exact enumFrom_filter_snd_length relayer 0 event.refundAddresses
    · intro i hi
      obtain ⟨p, hp, hpi⟩ := List.mem_map.mp hi
      have hpb := mem_enumFrom_bound (List.mem_filter.mp hp).1
      simp only [Nat.zero_add] at hpb
      have hilt : i < event.refundAmounts.length := by
        rw [hlen, ← hpi]; exact hpb
      cases hget : event.refundAmounts[i]? with
      | none =>
        rw [List.getElem?_eq_none_iff] at hget
        omega
      | some a => simp [hget]
  · rw [if_neg hmem]
    have : event.refundAddresses.filter (fun a => decide (a = relayer)) = [] := by
      rw [List.filter_eq_nil_iff]
      intro a ha
      simp only [decide_eq_true_eq]
      intro hc
      exact hmem (hc ▸ ha)
    rw [this]
    rfl

/-- C6, counterexample: with chains 1 and 10 configured and a refund event
on chain 10 addressed to the relayer, `process_returns` inserts nothing —
chain 10 is never scanned (`if chain_id == 1`) — although scanning chain 10
would have produced a Return row.  This contradicts the claim that the
return ingestor runs for every configured chain. -/
theorem c6_returns_skip_chains_counterexample :
    process_returns c6Chains "RLY" (fun _ _ => 0) c6ChainEvents = [] ∧
      process_chain_returns "RLY" (fun _ _ => 0) 10 (c6ChainEvents 10) ≠ [] := by
  exact ⟨by decide, by decide⟩

/-- C6 (amended): `process_returns` scans only the configured chains with
chain id 1 (the hardcoded `if chain_id == 1` guard); for a chain it does
scan, it inserts one `Return` row per index at which the relayer's address
appears in an event's `refundAddresses` array. -/
theorem c6_returns_only_chain1_amended :
    (∀ (chains : List ChainConfig) (relayer : String) (blockTime : Nat → Nat → Nat)
      (chainEvents : Nat → List RefundEvent),
      process_returns chains relayer blockTime chainEvents =
        (chains.filter (fun c => decide (c.chain_id = 1))).flatMap
          (fun _ => process_chain_returns relayer blockTime 1 (chainEvents 1))) ∧
    (∀ (relayer : String) (blockTime : Nat → Nat → Nat) (chain_id : Nat)
      (events : List RefundEvent),
      (∀ e ∈ events, e.refundAmounts.length = e.refundAddresses.length) →
      (process_chain_returns relayer blockTime chain_id events).length =
        (events.map (fun e => (e.refundAddresses.filter
          (fun a => decide (a = relayer))).length)).sum) := by
  constructor
  · intro chains relayer blockTime chainEvents
    induction chains with
    | nil => rfl
    | cons c cs ih =>
      simp only [process_returns] at ih ⊢
      rw [List.flatMap_cons, List.filter_cons]
      by_cases h : c.chain_id = 1
      · simp [h, ih, List.flatMap_cons]
      · simp [h, ih]
  · intro relayer blockTime chain_id events hlen
    simp only [process_chain_returns]
    rw [List.length_flatMap]
    congr 1
    apply List.map_congr_left
    intro e he
    exact returnRowsOfEvent_length relayer blockTime chain_id e (hlen e he)

/-- Witness for C6 (amended): on the two-chain configuration only chain 1's
(empty) log is scanned, and scanning chain 10's log directly would produce
exactly one row for the single relayer index. -/
theorem c6_returns_only_chain1_amended_witness :
    (process_returns c6Chains "RLY" (fun _ _ => 0) c6ChainEvents =
      (c6Chains.filter (fun c => decide (c.chain_id = 1))).flatMap
        (fun _ => process_chain_returns "RLY" (fun _ _ => 0) 1 (c6ChainEvents 1))) ∧
    (process_chain_returns "RLY" (fun _ _ => 0) 10 (c6ChainEvents 10)).length =
      ((c6ChainEvents 10).map (fun e => (e.refundAddresses.filter
        (fun a => decide (a = "RLY"))).length)).sum := by
  exact ⟨c6_returns_only_chain1_amended.1 c6Chains "RLY" (fun _ _ => 0) c6ChainEvents,
    c6_returns_only_chain1_amended.2 "RLY" (fun _ _ => 0) 10 (c6ChainEvents 10)
      (by decide)⟩

/-- C7: when zero successful fills fall inside a bundle's window for a
token, `process_bundle` inserts no `BundleReturn` row whose token address
is that token (`if not fills: continue`), regardless of the `Return` table
— so no all-zero row is ever written for an empty window. -/
theorem c7_no_row_for_empty_window
    (blockTime : Nat → Nat → Nat) (bundles : List BundleRow) (fills : List Fill)
    (returns : List ReturnRow) (bundle : BundleRow)
    (active_tokens : List (String × String)) (T : String)
    (hempty : (get_bundle_fills bundles fills bundle.bundle_id bundle.chain_id T).1 = []) :
    ∀ r ∈ process_bundle blockTime bundles fills returns bundle active_tokens,
      r.token_address ≠ T := by
  intro r hr
  obtain ⟨tok, htok, heq⟩ := List.mem_filterMap.mp hr
  rcases hgf : get_bundle_fills bundles fills bundle.bundle_id bundle.chain_id tok.1 with
    ⟨bf, sb, eb⟩
  simp only [hgf] at heq
  by_cases hT : tok.1 = T
  · rw [hT] at hgf
    have hbf : bf = [] := by
      have h2 := congrArg Prod.fst hgf
      simp only at h2
      rw [← h2]
      exact hempty
    rw [hbf] at heq
    simp at heq
  · by_cases hbe : bf.isEmpty
    · rw [if_pos hbe] at heq
      simp at heq
    · rw [if_neg hbe] at heq
      simp only [Option.some.injEq] at heq
      rw [← heq]
      exact hT

/-- Witness for C7: token `U` has no fills in bundle 2's window on chain 5
although a `Return` row for `U` exists; no row with token `U` is produced. -/
theorem c7_no_row_for_empty_window_witness :
    (get_bundle_fills c2Bundles c2Fills 2 5 "U").1 = [] ∧
      ∀ r ∈ process_bundle (fun _ _ => 0) c2Bundles c2Fills c7Returns c2NewBundle
        [("U", "USD")], r.token_address ≠ "U" := by
  exact ⟨by decide, c7_no_row_for_empty_window (fun _ _ => 0) c2Bundles c2Fills c7Returns
    c2NewBundle [("U", "USD")] "U" (by decide)⟩

/-- C8, counterexample: for chain 999, which has no entry in the
configuration, the fill cursor, the bundle cursor and the bundle-end-block
lookup all return the default 0 after logging — none of them raises, as
the claim asserts. -/
theorem c8_cursor_returns_zero_counterexample :
    get_last_processed_block c8Chains [] 999 = 0 ∧
      get_last_processed_bundle c8Chains [] 999 = 0 ∧
      get_last_bundle_end_block c8Chains [] 4 999 = 0 := by
  exact ⟨by decide, by decide, by decide⟩

/-- C8 (amended): for a chain id with no configuration entry and no
persisted rows, the fill cursor (`get_last_processed_block`), the bundle
cursor (`get_last_processed_bundle`) and the bundle-end-block lookup
(`get_last_bundle_end_block`) silently return 0; only the deposit-event
start-block lookup (`get_deposit_start_block`) raises. -/
theorem c8_cursor_fallbacks_amended :
    (∀ (chains : List ChainConfig) (fills : List Fill) (cid : Nat),
      chains.find? (fun c => decide (c.chain_id = cid)) = none →
      (∀ f ∈ fills, f.destination_chain_id ≠ cid) →
      get_last_processed_block chains fills cid = 0) ∧
    (∀ (chains : List ChainConfig) (bundles : List BundleRow) (cid : Nat),
      chains.find? (fun c => decide (c.chain_id = cid)) = none →
      (∀ b ∈ bundles, b.chain_id ≠ cid) →
      get_last_processed_bundle chains bundles cid = 0) ∧
    (∀ (chains : List ChainConfig) (bundles : List BundleRow) (bid cid : Nat),
      chains.find? (fun c => decide (c.chain_id = cid)) = none →
      (∀ b ∈ bundles, ¬ (b.bundle_id = bid ∧ b.chain_id = cid)) →
      get_last_bundle_end_block chains bundles bid cid = 0) ∧
    (∀ (chains : List ChainConfig) (fills : List Fill) (cid : Nat),
      chains.find? (fun c => decide (c.chain_id = cid)) = none →
      (∀ f ∈ fills, f.origin_chain_id ≠ cid) →
      get_deposit_start_block chains fills cid =
        Except.error "no configuration found for chain") := by
  refine ⟨?_, ?_, ?_, ?_⟩
  · intro chains fills cid hfind hnone
    have hf : fills.filter (fun f => decide (f.destination_chain_id = cid)) = [] := by
      rw [List.filter_eq_nil_iff]
      intro f hfm
      simp only [decide_eq_true_eq]
      exact hnone f hfm
    simp only [get_last_processed_block, hf, List.map_nil, hfind]
    rfl
  · intro chains bundles cid hfind hnone
    have hb : bundles.filter (fun b => decide (b.chain_id = cid)) = [] := by
      rw [List.filter_eq_nil_iff]
      intro b hbm
      simp only [decide_eq_true_eq]
      exact hnone b hbm
    simp only [get_last_processed_bundle, hb, List.map_nil, hfind]
    rfl
  · intro chains bundles bid cid hfind hnone
    have hb : bundles.find? (fun b => decide (b.bundle_id = bid ∧ b.chain_id = cid)) =
        none := by
      rw [List.find?_eq_none]
      intro b hbm
      simp only [decide_eq_true_eq]
      exact hnone b hbm
    simp only [get_last_bundle_end_block, hb, hfind]
  · intro chains fills cid hfind hnone
    have hf : fills.filter (fun f => decide (f.origin_chain_id = cid)) = [] := by
      rw [List.filter_eq_nil_iff]
      intro f hfm
      simp only [decide_eq_true_eq]
      exact hnone f hfm
    simp only [get_deposit_start_block, hf, List.filterMap_nil, hfind]
    rfl

/-- Witness for C8 (amended): chain 999 on the one-chain configuration with
empty tables — cursors return 0, the deposit lookup errors. -/
theorem c8_cursor_fallbacks_amended_witness :
    get_last_processed_block c8Chains [] 999 = 0 ∧
      get_deposit_start_block c8Chains [] 999 =
        Except.error "no configuration found for chain" := by
  exact ⟨c8_cursor_fallbacks_amended.1 c8Chains [] 999 (by decide) (by simp),
    c8_cursor_fallbacks_amended.2.2.2 c8Chains [] 999 (by decide) (by simp)⟩

theorem lpFeeAux_attempts_le (responses : Nat → LpApiResult) (mr : Nat) (d : ℚ) :
    ∀ (fuel a : Nat), (lpFeeAux responses mr d fuel a).2.1 ≤ fuel := by
  intro fuel
  induction fuel with
  | zero => intro a; simp [lpFeeAux]
  | succ k ih =>
    intro a
    simp only [lpFeeAux]
    cases responses a with
    | ok v => simp
    | httpError s =>
      by_cases h : a < mr
      · simp only [if_pos h]
        exact Nat.succ_le_succ (ih (a + 1))
      · simp only [if_neg h]
        exact Nat.succ_le_succ (Nat.zero_le k)
    | exn =>
      by_cases h : a < mr
      · simp only [if_pos h]
        exact Nat.succ_le_succ (ih (a + 1))
      · simp only [if_neg h]
        exact Nat.succ_le_succ (Nat.zero_le k)

theorem lpFeeAux_none_of_all_fail (responses : Nat → LpApiResult) (mr : Nat) (d : ℚ)
    (hfail : ∀ i, (responses i).isOk = false) :
    ∀ (fuel a : Nat), (lpFeeAux responses mr d fuel a).1 = none := by
  intro fuel
  induction fuel with
  | zero => intro a; simp [lpFeeAux]
  | succ k ih =>
    intro a
    simp only [lpFeeAux]
    cases hre : responses a with
    | ok v =>
      have := hfail a
      rw [hre] at this
      simp [LpApiResult.isOk] at this
    | httpError s =>
      by_cases h : a < mr
      · simp only [if_pos h]
        exact ih (a + 1)
      · simp only [if_neg h]
    | exn =>
      by_cases h : a < mr
      · simp only [if_pos h]
        exact ih (a + 1)
      · simp only [if_neg h]

theorem lpFeeAux_sleeps_double (responses : Nat → LpApiResult) (mr : Nat) (d : ℚ) :
    ∀ (fuel a : Nat),
    (lpFeeAux responses mr d fuel a).2.2 =
      (List.range (lpFeeAux responses mr d fuel a).2.2.length).map
        (fun i => d * 2 ^ (a + i)) := by
  intro fuel
  induction fuel with
  | zero => intro a; simp [lpFeeAux]
  | succ k ih =>
    intro a
    simp only [lpFeeAux]
    cases responses a with
    | ok v => simp
    | httpError s =>
      by_cases h : a < mr
      · simp only [if_pos h, List.length_cons, List.range_succ_eq_map, List.map_cons,
          List.map_map]
        congr 1
        rw [ih (a + 1)]
        simp only [List.length_map, List.length_range]
        apply List.map_congr_left
        intro i _
        simp only [Function.comp]
        have harith : a + 1 + i = a + (i + 1) := by omega
        rw [harith]
      · simp only [if_neg h]
        simp
    | exn =>
      by_cases h : a < mr
      · simp only [if_pos h, List.length_cons, List.range_succ_eq_map, List.map_cons,
          List.map_map]
        congr 1
        rw [ih (a + 1)]
        simp only [List.length_map, List.length_range]
        apply List.map_congr_left
        intro i _
        simp only [Function.comp]
        have harith : a + 1 + i = a + (i + 1) := by omega
        rw [harith]
      · simp only [if_neg h]
        simp

theorem priceAux_attempts_le (responses : Nat → PriceApiResult) (r : Nat) :
    ∀ (fuel a : Nat) (delay : ℚ), (priceAux responses r fuel a delay).2.1 ≤ fuel := by
  intro fuel
  induction fuel with
  | zero => intro a delay; simp [priceAux]
  | succ k ih =>
    intro a delay
    simp only [priceAux]
    cases responses a with
    | rateLimited =>
      by_cases h : a < r - 1
      · simp only [if_pos h]
        exact Nat.succ_le_succ (ih (a + 1) delay)
      · simp only [if_neg h]
        exact Nat.succ_le_succ (Nat.zero_le k)
    | okPrice p => simp
    | okNoMarketData => simp
    | exn =>
      by_cases h : a < r - 1
      · simp only [if_pos h]
        exact Nat.succ_le_succ (ih (a + 1) (delay * 2))
      · simp only [if_neg h]
        exact Nat.succ_le_succ (Nat.zero_le k)

theorem priceAux_none_of_all_fail (responses : Nat → PriceApiResult) (r : Nat)
    (hfail : ∀ (i : Nat) (p : ℚ), responses i ≠ .okPrice p) :
    ∀ (fuel a : Nat) (delay : ℚ), (priceAux responses r fuel a delay).1 = none := by
  intro fuel
  induction fuel with
  | zero => intro a delay; simp [priceAux]
  | succ k ih =>
    intro a delay
    simp only [priceAux]
    cases hre : responses a with
    | rateLimited =>
      by_cases h : a < r - 1
      · simp only [if_pos h]
        exact ih (a + 1) delay
      · simp only [if_neg h]
    | okPrice p => exact absurd hre (hfail a p)
    | okNoMarketData => simp
    | exn =>
      by_cases h : a < r - 1
      · simp only [if_pos h]
        exact ih (a + 1) (delay * 2)
      · simp only [if_neg h]

/-- C9, counterexample: a rate-limited first attempt followed by a network
error makes `_get_price_from_api` sleep 10 seconds twice — `[10, 10]`, not
the doubling `[10, 20]` the claim asserts — because the 429 branch computes
`delay * 2 ** attempt` without updating `delay` while the exception branch
sleeps the un-scaled `delay` before doubling it. -/
theorem c9_price_delay_counterexample :
    (_get_price_from_api c9MixedResponses).2.2 = [10, 10] ∧
      ¬ ((_get_price_from_api c9MixedResponses).2.2 = [10, 20]) := by
  have h : (_get_price_from_api c9MixedResponses).2.2 = [10, 10] := by
    simp [_get_price_from_api, priceAux, c9MixedResponses]
  refine ⟨h, ?_⟩
  rw [h]
  intro hc
  simp only [List.cons.injEq] at hc
  have h2 : (10 : ℚ) = 20 := hc.2.1
  norm_num at h2

/-- C9 (amended): `get_lp_fee` makes at most `max_retries + 1` HTTP
attempts (4 at the hardcoded default), its back-off delays are exactly
`initial_delay * 2 ^ i` for consecutive `i` (doubling), and it returns
`None` when every attempt fails; `_get_price_from_api` makes at most 3
attempts and returns `None` when no attempt yields a price.  (Its delays,
however, need not double across mixed failure modes — see the
counterexample.) -/
theorem c9_bounded_retries_amended :
    (∀ (responses : Nat → LpApiResult) (mr : Nat) (d : ℚ),
      (get_lp_fee responses mr d).2.1 ≤ mr + 1 ∧
      (get_lp_fee responses mr d).2.2 =
        (List.range (get_lp_fee responses mr d).2.2.length).map (fun i => d * 2 ^ i) ∧
      ((∀ i, (responses i).isOk = false) → (get_lp_fee responses mr d).1 = none)) ∧
    (∀ (responses : Nat → PriceApiResult),
      (_get_price_from_api responses).2.1 ≤ 3 ∧
      ((∀ (i : Nat) (p : ℚ), responses i ≠ .okPrice p) →
        (_get_price_from_api responses).1 = none)) := by
  constructor
  · intro responses mr d
    refine ⟨lpFeeAux_attempts_le responses mr d (mr + 1) 0, ?_, ?_⟩
    · have := lpFeeAux_sleeps_double responses mr d (mr + 1) 0
      simpa using this
    · intro hfail
      exact lpFeeAux_none_of_all_fail responses mr d hfail (mr + 1) 0
  · intro responses
    exact ⟨priceAux_attempts_le responses 3 3 0 10,
      fun hfail => priceAux_none_of_all_fail responses 3 hfail 3 0 10⟩

/-- Witness for C9 (amended): with every LP-fee attempt failing, the call
makes at most 4 attempts and returns `None`; the all-failing price call
returns `None` within 3 attempts. -/
theorem c9_bounded_retries_amended_witness :
    (get_lp_fee c9FailResponses 3 1).2.1 ≤ 4 ∧
      (get_lp_fee c9FailResponses 3 1).1 = none ∧
      (_get_price_from_api c9MixedResponses).2.1 ≤ 3 ∧
      (_get_price_from_api c9MixedResponses).1 = none := by
  refine ⟨(c9_bounded_retries_amended.1 c9FailResponses 3 1).1,
    (c9_bounded_retries_amended.1 c9FailResponses 3 1).2.2 (fun i => rfl),
    (c9_bounded_retries_amended.2 c9MixedResponses).1,
    (c9_bounded_retries_amended.2 c9MixedResponses).2 ?_⟩
  intro i p
  simp only [c9MixedResponses]
  by_cases h : i = 0
  · simp [h]
  · simp [h]

theorem priceLookup_some {prices : List TokenPriceRow} {d : Nat} {sym : String} {v : ℚ}
    (h : priceLookup prices d sym = some v) :
    ∃ p ∈ prices, p.date = d ∧ p.token_symbol = sym := by
  unfold priceLookup at h
  cases hf : prices.find? (fun p => decide (p.date = d ∧ p.token_symbol = sym)) with
  | none => rw [hf] at h; simp at h
  | some p =>
    have hm := List.mem_of_find?_eq_some hf
    have hp := List.find?_some hf
    simp only [decide_eq_true_eq] at hp
    exact ⟨p, hm, hp⟩

/-- C10: `calculate_daily_profits` inserts a `DailyProfit` row for a
(date, chain, symbol) group only when that date has a `TokenPrice` row for
both the group's symbol and `ETH` (the two inner joins): if either price is
missing, no row for that (date, symbol) is produced; and a fill lacking its
`DailyProfit` row makes `_get_date_range` start no later than that fill's
date (and end no earlier), so a later run re-selects the day. -/
theorem c10_daily_profit_requires_prices :
    (∀ (fills : List Fill) (tokens : List TokenRow) (prices : List TokenPriceRow)
      (start_ts end_ts d : Nat) (sym : String),
      (priceLookup prices d sym = none ∨ priceLookup prices d "ETH" = none) →
      ∀ r ∈ insertDailyProfitDay fills tokens prices start_ts end_ts,
        ¬ (r.date = d ∧ r.token_symbol = sym)) ∧
    (∀ (fills : List Fill) (tokens : List TokenRow) (prices : List TokenPriceRow)
      (start_ts end_ts : Nat) (r : DailyProfitRow),
      r ∈ insertDailyProfitDay fills tokens prices start_ts end_ts →
      (∃ p ∈ prices, p.date = r.date ∧ p.token_symbol = r.token_symbol) ∧
      (∃ p ∈ prices, p.date = r.date ∧ p.token_symbol = "ETH")) ∧
    (∀ (fills : List Fill) (tokens : List TokenRow) (dps : List DailyProfitRow)
      (f : Fill), f ∈ fills → unprocessedFill tokens dps f = true →
      ∃ s e, _get_date_range fills tokens dps = some (s, e) ∧
        s ≤ dateOf f.tx_timestamp ∧ dateOf f.tx_timestamp ≤ e) := by
  have hmem : ∀ (fills : List Fill) (tokens : List TokenRow) (prices : List TokenPriceRow)
      (start_ts end_ts : Nat) (r : DailyProfitRow),
      r ∈ insertDailyProfitDay fills tokens prices start_ts end_ts →
      ∃ (k : Nat × Nat × String) (tp ep : ℚ),
        priceLookup prices k.1 k.2.2 = some tp ∧ priceLookup prices k.1 "ETH" = some ep ∧
        r.date = k.1 ∧ r.token_symbol = k.2.2 := by
    intro fills tokens prices start_ts end_ts r hr
    obtain ⟨k, hk, heq⟩ := List.mem_filterMap.mp hr
    cases h1 : priceLookup prices k.1 k.2.2 with
    | none =>
      cases h2 : priceLookup prices k.1 "ETH" with
      | none => simp only [h1, h2] at heq; exact absurd heq (by simp)
      | some ep => simp only [h1, h2] at heq; exact absurd heq (by simp)
    | some tp =>
      cases h2 : priceLookup prices k.1 "ETH" with
      | none => simp only [h1, h2] at heq; exact absurd heq (by simp)
      | some ep =>
        simp only [h1, h2, Option.some.injEq] at heq
        refine ⟨k, tp, ep, h1, h2, ?_, ?_⟩
        · rw [← heq]
        · rw [← heq]
  refine ⟨?_, ?_, ?_⟩
  · intro fills tokens prices start_ts end_ts d sym hnone r hr hcontra
    obtain ⟨k, tp, ep, h1, h2, hd, hs⟩ := hmem fills tokens prices start_ts end_ts r hr
    rcases hnone with hn | hn
    · rw [hcontra.1] at hd
      rw [hcontra.2] at hs
      rw [hd, hs, h1] at hn
      exact Option.noConfusion hn
    · rw [hcontra.1] at hd
      rw [hd, h2] at hn
      exact Option.noConfusion hn
  · intro fills tokens prices start_ts end_ts r hr
    obtain ⟨k, tp, ep, h1, h2, hd, hs⟩ := hmem fills tokens prices start_ts end_ts r hr
    constructor
    · rw [hd, hs]
      exact priceLookup_some h1
    · rw [hd]
      exact priceLookup_some h2
  · intro fills tokens dps f hf hunp
    have hdm : dateOf f.tx_timestamp ∈
        ((fills.filter (unprocessedFill tokens dps)).map (fun g => dateOf g.tx_timestamp)) :=
      List.mem_map.mpr ⟨f, List.mem_filter.mpr ⟨hf, hunp⟩, rfl⟩
    have hda : dateOf f.tx_timestamp ∈ (fills.map (fun g => dateOf g.tx_timestamp)) :=
      List.mem_map.mpr ⟨f, hf, rfl⟩
    cases hmin : minNat? ((fills.filter (unprocessedFill tokens dps)).map
        (fun g => dateOf g.tx_timestamp)) with
    | none =>
      have := minNat?_isSome_of_mem hdm
      rw [hmin] at this
      simp at this
    | some s =>
      cases hmax : maxNat? (fills.map (fun g => dateOf g.tx_timestamp)) with
      | none =>
        have := maxNat?_isSome_of_mem hda
        rw [hmax] at this
        simp at this
      | some e =>
        refine ⟨s, e, ?_, minNat?_le_of_mem hdm hmin, le_of_mem_maxNat? hda hmax⟩
        simp only [_get_date_range, hmin, hmax]

/-- Witness for C10: the day-2 fill for token `X` with a price table
missing ETH produces no row for (day 2, `XT`), and the same fill with an
empty `DailyProfit` table is re-selected inside the computed date range. -/
theorem c10_daily_profit_requires_prices_witness :
    (∀ r ∈ insertDailyProfitDay [c10Fill] c10Tokens c10PricesNoEth 172800 259200,
      ¬ (r.date = 2 ∧ r.token_symbol = "XT")) ∧
    ∃ s e, _get_date_range [c10Fill] c10Tokens [] = some (s, e) ∧
      s ≤ dateOf c10Fill.tx_timestamp ∧ dateOf c10Fill.tx_timestamp ≤ e := by
  exact ⟨c10_daily_profit_requires_prices.1 [c10Fill] c10Tokens c10PricesNoEth
      172800 259200 2 "XT" (Or.inr (by decide)),
    c10_daily_profit_requires_prices.2.2 [c10Fill] c10Tokens [] c10Fill (by decide)
      (by decide)⟩

end RelayerMonitoring
